import Mathlib

/-!
Shallow embedding of the ant trail-following simulation (model.py) and
verification of its specification claims.

Modelling conventions:
* Python ints become Lean Int (Nat where the source guarantees non-negative,
  e.g. list indices); Python floats become Rat, with float tolerances taken
  as exact rational comparisons.
* Node object references become arena indices (Nat) into the list of nodes
  owned by the lattice; mutation of a node becomes a functional update of
  that list at the index.
* Python dicts keep insertion order, so node.neighbors (initialized once
  with all 8 directions, values only ever overwritten by set_neighbor) is
  embedded as an association list whose key order is the LatticeDir
  definition order.
* The pseudorandom source is embedded as an explicit list of rationals in
  [0,1); random.random() pops the head, and random.choice over the 8
  directions maps a popped draw u to index floor(u*8).  Fallible operations
  (dict lookup that can raise, division that can raise) return Option.
-/

/-- The 8 compass directions of the lattice, 0 degrees North, clockwise
(model.py LatticeDir). -/
inductive LatticeDir where
  | NORTH
  | NORTHEAST
  | EAST
  | SOUTHEAST
  | SOUTH
  | SOUTHWEST
  | WEST
  | NORTHWEST
deriving DecidableEq, Repr, Fintype

/-- Angle value of a direction, as in the Python enum. -/
def LatticeDir.value : LatticeDir → ℤ
  | .NORTH => 0
  | .NORTHEAST => 45
  | .EAST => 90
  | .SOUTHEAST => 135
  | .SOUTH => 180
  | .SOUTHWEST => 225
  | .WEST => 270
  | .NORTHWEST => 315

/-- All directions in Python enum definition order (the iteration order of
the LatticeDir enum and of every neighbors dict). -/
def LatticeDir.all : List LatticeDir :=
  [.NORTH, .NORTHEAST, .EAST, .SOUTHEAST, .SOUTH, .SOUTHWEST, .WEST, .NORTHWEST]

/-- LatticeDir.opposite: search the enum, in definition order, for the
direction whose value is (d + 180) mod 360; the source raises ValueError
when the search fails, embedded as Option.none. -/
def LatticeDir.opposite (d : LatticeDir) : Option LatticeDir :=
  LatticeDir.all.find? (fun e => e.value = (d.value + 180) % 360)

/-- LatticeDir.relative: signed relative angle from a to b.  Python an
integer remainder with positive modulus is non-negative, matching Int
emod. -/
def LatticeDir.relative (a b : LatticeDir) : ℤ :=
  let r := (b.value - a.value) % 360
  if 180 < r then r - 360 else r

/-- Geometric offset used by the square-lattice builder for each direction
(model.py LatticeBuilders.square_lattice, directions table); y grows
southward. -/
def dirOffset : LatticeDir → ℤ × ℤ
  | .NORTH => (0, -1)
  | .NORTHEAST => (1, -1)
  | .EAST => (1, 0)
  | .SOUTHEAST => (1, 1)
  | .SOUTH => (0, 1)
  | .SOUTHWEST => (-1, 1)
  | .WEST => (-1, 0)
  | .NORTHWEST => (-1, -1)

/-- A lattice node: position, pheromone counter, and the 8-entry ordered
neighbor dictionary (values are arena indices; none at boundaries). -/
structure LatticeNode where
  position : ℤ × ℤ
  pheromone_level : ℤ
  neighbors : List (LatticeDir × Option ℕ)
deriving DecidableEq, Repr

/-- Placeholder node used to totalize arena dereferencing; never reachable
for indices produced by the builder. -/
def defaultNode : LatticeNode := ⟨(0, 0), 0, []⟩

/-- LatticeNode.add_pheromone: unconditional increment. -/
def LatticeNode.add_pheromone (nd : LatticeNode) (amount : ℤ) : LatticeNode :=
  { nd with pheromone_level := nd.pheromone_level + amount }

/-- LatticeNode.remove_pheromone: clamped decrement, never below zero. -/
def LatticeNode.remove_pheromone (nd : LatticeNode) (amount : ℤ) : LatticeNode :=
  { nd with pheromone_level := max 0 (nd.pheromone_level - amount) }

/-- Functional update of a list at an index (mutation of the arena cell a
Python reference points at); out-of-range indices leave the list unchanged
and are never produced by the model. -/
def listModify (l : List LatticeNode) (i : ℕ) (f : LatticeNode → LatticeNode) :
    List LatticeNode :=
  match l[i]? with
  | some x => l.set i (f x)
  | none => l

/-- Ordered-dict lookup in a neighbors association list; returns the stored
optional index, none when the key is missing (the source's KeyError;
unreachable because every neighbors dict carries all 8 keys). -/
def dictLookup (d : LatticeDir) : List (LatticeDir × Option ℕ) → Option ℕ
  | [] => none
  | (k, v) :: rest => if k = d then v else dictLookup d rest

/-- The lattice owns the arena of nodes (model.py Lattice; named AntLattice
here because Mathlib already defines an order-theoretic Lattice). -/
structure AntLattice where
  nodes : List LatticeNode
deriving DecidableEq, Repr

/-- One node of the square lattice at grid coordinate (x, y) of a world of
size N, with its neighbor dictionary as produced by
LatticeBuilders.square_lattice: a direction is linked exactly when the
geometric target is in bounds, and the linked reference is the arena index
x*N + y of the target (insertion order of the builder's node dict: x outer
loop, y inner loop). -/
def nodeAt (N : ℕ) (x y : ℕ) : LatticeNode where
  position := ((x : ℤ), (y : ℤ))
  pheromone_level := 0
  neighbors :=
    LatticeDir.all.map (fun d =>
      let nx : ℤ := (x : ℤ) + (dirOffset d).1
      let ny : ℤ := (y : ℤ) + (dirOffset d).2
      (d, if 0 ≤ nx ∧ nx < (N : ℤ) ∧ 0 ≤ ny ∧ ny < (N : ℤ) then
            some (nx.toNat * N + ny.toNat)
          else none))

/-- LatticeBuilders.square_lattice: N*N nodes, in the builder's insertion
order, each linked per nodeAt. -/
def square_lattice (N : ℕ) : AntLattice :=
  ⟨(List.range N).flatMap (fun x => (List.range N).map (fun y => nodeAt N x y))⟩

/-- World parameters (model.py WorldParams fields, after construction). -/
structure WorldParams where
  tau : ℤ
  B : List (ℤ × ℚ)
  phi_low : ℚ
  C_s : ℤ
  delta_phi : ℚ
  evaporation_rate : ℤ
  world_size : ℕ
  generate_lattice : ℕ → AntLattice

/-- Turning-kernel lookup B[angle]; a missing key is the source's KeyError,
embedded as weight 0 (every constructed kernel carries all 8 offsets). -/
def lookupB (B : List (ℤ × ℚ)) (a : ℤ) : ℚ :=
  match B with
  | [] => 0
  | (k, v) :: rest => if k = a then v else lookupB rest a

/-- WorldParams construction with the constructor's four assertions, in
source order; an assertion failure is the Except.error case.  The dict B is
embedded as its ordered item list. -/
def mkWorldParams (tau : ℤ) (B : List (ℤ × ℚ)) (phi_low : ℚ) (C_s : ℤ)
    (delta_phi : ℚ) (evaporation_rate : ℤ) (world_size : ℕ)
    (generate_lattice : ℕ → AntLattice) : Except String WorldParams :=
  if ¬ (|(B.map Prod.snd).sum - 1| < 1 / 1000000) then
    .error "Turning kernel probabilities must sum to 1."
  else if ¬ (B.length = 8) then
    .error "Turning kernel must have 8 entries for 8 directions."
  else if ¬ (0 ≤ phi_low ∧ phi_low ≤ 1) then
    .error "phi_low must be between 0 and 1."
  else if ¬ (0 ≤ delta_phi ∧ delta_phi ≤ 1) then
    .error "delta_phi must be between 0 and 1."
  else
    .ok ⟨tau, B, phi_low, C_s, delta_phi, evaporation_rate, world_size, generate_lattice⟩

/-- Whether a construction attempt succeeded. -/
def exceptOk : Except String WorldParams → Bool
  | .ok _ => true
  | .error _ => false

/-- Interactive field mutation used by the interface layers (bare attribute
assignment, no validation). -/
def WorldParams.set_phi_low (p : WorldParams) (v : ℚ) : WorldParams :=
  { p with phi_low := v }

/-- The turning kernel of WorldParams.default_small, as exact rationals, in
the source dict-literal order. -/
def B_small : List (ℤ × ℚ) :=
  [(0, 44/100), (45, 1/10), (-45, 1/10), (90, 8/100), (-90, 8/100),
   (135, 1/20), (-135, 1/20), (180, 1/10)]

/-- WorldParams.default_small (tau=4, phi_low=0.1, C_s=16, delta_phi=0.8,
evaporation_rate=1, world_size=4). -/
def pDemo : WorldParams :=
  ⟨4, B_small, 1/10, 16, 4/5, 1, 4, square_lattice⟩

/-- Ant behavioral status (model.py AntStatus). -/
inductive AntStatus where
  | LOST
  | FOLLOWING
deriving DecidableEq, Repr

/-- Result of one move attempt (model.py MoveResult). -/
inductive MoveResult where
  | SUCCESS
  | OFF_GRID
deriving DecidableEq, Repr

/-- An ant agent: arena index of its node, status, heading. -/
structure Ant where
  current_node : ℕ
  status : AntStatus
  velocity : LatticeDir
deriving DecidableEq, Repr

/-- Placeholder ant used to totalize list indexing inside the step loop;
never reached because the loop guards the index. -/
def defaultAnt : Ant := ⟨0, AntStatus.LOST, LatticeDir.NORTH⟩

/-- random.random(): pop the next uniform draw in [0,1) from the embedded
stream. -/
def rngNext (rng : List ℚ) : ℚ × List ℚ :=
  (rng.headD 0, rng.tail)

/-- random.choice(list(LatticeDir)): map one popped draw u to the direction
at index floor(u*8) of the enum order. -/
def randomChoiceDir (u : ℚ) : LatticeDir :=
  LatticeDir.all.getD (⌊u * 8⌋).toNat LatticeDir.NORTH

/-- Ant.get_fidelity_probability, as a function of the pheromone level of
the ant's current node: phi_low + delta_phi at or above saturation, else
phi_low + delta_phi * (level / C_s).  The division is Python float
division, which raises ZeroDivisionError when C_s = 0; that fallible case
is Option.none. -/
def Ant.get_fidelity_probability (p : WorldParams) (level : ℤ) : Option ℚ :=
  if p.C_s ≤ level then some (p.phi_low + p.delta_phi)
  else if p.C_s = 0 then none
  else some (p.phi_low + p.delta_phi * ((level : ℚ) / (p.C_s : ℚ)))

/-- Step 1 of Ant.move (the fidelity check): on a trail (level > 0) draw
once and compare against the fidelity probability; off a trail, LOST with
no draw consumed. -/
def fidelityPhase (p : WorldParams) (level : ℤ) (rng : List ℚ) :
    AntStatus × List ℚ :=
  if 0 < level then
    let (u, rng2) := rngNext rng
    (if u < (Ant.get_fidelity_probability p level).getD 0 then
       AntStatus.FOLLOWING
     else AntStatus.LOST, rng2)
  else (AntStatus.LOST, rng)

/-- Running totals of a weight list (itertools.accumulate inside
random.choices). -/
def cumsum : List ℚ → List ℚ
  | [] => []
  | w :: ws => w :: (cumsum ws).map (fun c => w + c)

/-- Index selection of random.choices for one pick: bisect the cumulative
weights (the last entry, the total, excluded from comparison, clamping the
index to the last position): the first index whose cumulative weight
strictly exceeds x. -/
def chooseIdx : List ℚ → ℚ → ℕ
  | [], _ => 0
  | [_], _ => 0
  | c :: c2 :: cs, x => if x < c then 0 else chooseIdx (c2 :: cs) x + 1

/-- Ant.pick_lost: weighted random choice over the keys of the neighbors
dict (all 8 directions), each direction d weighted by
B[velocity.relative(d)], consuming one draw; the source's assert that the
dict has 8 entries holds for every lattice node. -/
def Ant.pick_lost (p : WorldParams) (velocity : LatticeDir)
    (neighbors : List (LatticeDir × Option ℕ)) (rng : List ℚ) :
    LatticeDir × List ℚ :=
  let dirs := neighbors.map Prod.fst
  let weights := dirs.map (fun d => lookupB p.B (LatticeDir.relative velocity d))
  let (u, rng2) := rngNext rng
  (dirs.getD (chooseIdx (cumsum weights) (u * weights.sum)) LatticeDir.NORTH, rng2)

/-- The filtered dict of Ant.pick_following: neighbor directions whose node
exists, carries pheromone, and lies within 45 degrees of the heading (the
source compares abs(dir.relative(velocity))). -/
def nearby_trails (velocity : LatticeDir) (nodes : List LatticeNode)
    (neighbors : List (LatticeDir × Option ℕ)) : List (LatticeDir × LatticeNode) :=
  neighbors.filterMap (fun pr =>
    match pr.2 with
    | none => none
    | some i =>
      let nd := nodes.getD i defaultNode
      if 0 < nd.pheromone_level ∧ (LatticeDir.relative pr.1 velocity).natAbs ≤ 45
      then some (pr.1, nd) else none)

/-- Python max(items, key=pheromone_level): the first item of maximal
pheromone level (later items replace the best only on strict increase). -/
def maxByPher (l : List (LatticeDir × LatticeNode)) : LatticeDir × LatticeNode :=
  l.foldl
    (fun best pr =>
      if best.2.pheromone_level < pr.2.pheromone_level then pr else best)
    (l.headD (LatticeDir.NORTH, defaultNode))

/-- Ant.pick_following (Fork Algorithm 1): resolve the filtered trail set;
empty set or indistinguishable fork falls back to pick_lost over the full
neighbors dict. -/
def Ant.pick_following (p : WorldParams) (velocity : LatticeDir)
    (neighbors : List (LatticeDir × Option ℕ)) (nodes : List LatticeNode)
    (rng : List ℚ) : LatticeDir × List ℚ :=
  let nearby := nearby_trails velocity nodes neighbors
  if nearby.length = 0 then
    Ant.pick_lost p velocity neighbors rng
  else if nearby.length = 1 then
    ((nearby.headD (LatticeDir.NORTH, defaultNode)).1, rng)
  else if velocity ∈ nearby.map Prod.fst then
    (velocity, rng)
  else
    let first_val := (nearby.headD (LatticeDir.NORTH, defaultNode)).2.pheromone_level
    let all_same := nearby.all (fun pr => pr.2.pheromone_level = first_val)
    let all_saturated := nearby.all (fun pr => p.C_s ≤ pr.2.pheromone_level)
    if all_same ∨ all_saturated then
      Ant.pick_lost p velocity neighbors rng
    else
      ((maxByPher nearby).1, rng)

/-- Step 3 of Ant.move (move execution) for an ant whose status was already
set by the fidelity check: absent target returns OFF_GRID with nothing
further mutated; present target moves the ant, turns it, and deposits tau
at the new node. -/
def execMove (p : WorldParams) (a : Ant) (dir : LatticeDir)
    (nodes : List LatticeNode) : Ant × MoveResult × List LatticeNode :=
  let neighbors := (nodes.getD a.current_node defaultNode).neighbors
  match dictLookup dir neighbors with
  | none => (a, MoveResult.OFF_GRID, nodes)
  | some i =>
    ({ a with current_node := i, velocity := dir }, MoveResult.SUCCESS,
     listModify nodes i (fun nd => nd.add_pheromone p.tau))

/-- Ant.move: fidelity check, then direction choice by status, then move
execution; returns the updated ant, the move result, the updated arena,
and the remaining random stream. -/
def Ant.move (p : WorldParams) (nodes : List LatticeNode) (a : Ant)
    (rng : List ℚ) : Ant × MoveResult × List LatticeNode × List ℚ :=
  let level := (nodes.getD a.current_node defaultNode).pheromone_level
  let (st, rng1) := fidelityPhase p level rng
  let a1 := { a with status := st }
  let neighbors := (nodes.getD a1.current_node defaultNode).neighbors
  let (dir, rng2) :=
    if st = AntStatus.LOST then Ant.pick_lost p a1.velocity neighbors rng1
    else Ant.pick_following p a1.velocity neighbors nodes rng1
  let (a2, res, nodes2) := execMove p a1 dir nodes
  (a2, res, nodes2, rng2)

/-- Lattice.evaporate_all_pheromones: clamped removal of the evaporation
rate at every node. -/
def evaporate_all_pheromones (nodes : List LatticeNode) (p : WorldParams) :
    List LatticeNode :=
  nodes.map (fun nd => nd.remove_pheromone p.evaporation_rate)

/-- The simulation world (model.py AntWorld): parameters, lattice arena,
nest index, live ants in spawn order, timestep. -/
structure AntWorld where
  params : WorldParams
  lattice : AntLattice
  nest_node : ℕ
  ants : List Ant
  timestep : ℕ

/-- The mid-loop iteration state of the Python statement
"for ant in self.ants: ... self.ants.remove(ant)": the iterator holds a
cursor c and yields the element now at position c of the current (possibly
already shrunk) list.  Removing the just-processed ant at position c shifts
the suffix left while the cursor still advances, so the element that
followed the removed one is skipped.  The fuel argument only bounds the
recursion and is never exhausted when it starts at the list length, since
each call advances the cursor by one and the list never grows. -/
def moveLoop (p : WorldParams) : ℕ → List LatticeNode → List Ant → List ℚ → ℕ →
    List LatticeNode × List Ant × List ℚ
  | 0, nodes, ants, rng, _ => (nodes, ants, rng)
  | fuel + 1, nodes, ants, rng, c =>
    if c < ants.length then
      let a := ants.getD c defaultAnt
      let (a2, res, nodes2, rng2) := Ant.move p nodes a rng
      let ants2 := ants.set c a2
      if res = MoveResult.OFF_GRID then
        moveLoop p fuel nodes2 (ants2.eraseIdx c) rng2 (c + 1)
      else
        moveLoop p fuel nodes2 ants2 rng2 (c + 1)
    else (nodes, ants, rng)

/-- AntWorld.step: bump the timestep, append one freshly spawned ant at the
nest (status LOST, random heading), run the move loop over the collection,
then evaporate every node. -/
def AntWorld.step (w : AntWorld) (rng : List ℚ) : AntWorld × List ℚ :=
  let t := w.timestep + 1
  let (u, rng1) := rngNext rng
  let newAnt : Ant := ⟨w.nest_node, AntStatus.LOST, randomChoiceDir u⟩
  let ants1 := w.ants ++ [newAnt]
  let (nodes2, ants2, rng2) := moveLoop w.params ants1.length w.lattice.nodes ants1 rng1 0
  let nodes3 := evaporate_all_pheromones nodes2 w.params
  ({ w with timestep := t, ants := ants2, lattice := ⟨nodes3⟩ }, rng2)

/-- An abstract pheromone operation of the node/lattice API (the three
mutators the spec groups together). -/
inductive PherOp where
  | add (i : ℕ) (amount : ℤ)
  | remove (i : ℕ) (amount : ℤ)
  | evaporate (p : WorldParams)

/-- Apply one pheromone operation to the arena. -/
def applyOp : PherOp → List LatticeNode → List LatticeNode
  | .add i amt, nodes => listModify nodes i (fun nd => nd.add_pheromone amt)
  | .remove i amt, nodes => listModify nodes i (fun nd => nd.remove_pheromone amt)
  | .evaporate p, nodes => evaporate_all_pheromones nodes p

/-- Apply a sequence of pheromone operations, oldest first. -/
def applyOps (ops : List PherOp) (nodes : List LatticeNode) : List LatticeNode :=
  ops.foldl (fun ns op => applyOp op ns) nodes

/-- Modelled from the spec (section 4.3, Follow/Fork Algorithm): the
candidate set written as the spec words it, keeping the directions d with a
present neighbor node of positive pheromone and abs(relative(velocity, d))
at most 45 — note the spec orients the relative angle from the velocity to
the candidate, while the source orients it from the candidate to the
velocity; the refinement theorem for the fork filter compares the two. -/
def forkCandidatesSpec (velocity : LatticeDir) (nodes : List LatticeNode)
    (neighbors : List (LatticeDir × Option ℕ)) : List LatticeDir :=
  (neighbors.filter (fun pr =>
    match pr.2 with
    | none => false
    | some i =>
      decide (0 < (nodes.getD i defaultNode).pheromone_level) &&
      decide ((LatticeDir.relative velocity pr.1).natAbs ≤ 45))).map Prod.fst

/-- The neighbor dictionary of the corner node (0,0) of the size-4 square
lattice, written out (East is arena index 4, Southeast 5, South 1). -/
def cornerNbrs : List (LatticeDir × Option ℕ) :=
  [(LatticeDir.NORTH, none), (LatticeDir.NORTHEAST, none), (LatticeDir.EAST, some 4),
   (LatticeDir.SOUTHEAST, some 5), (LatticeDir.SOUTH, some 1), (LatticeDir.SOUTHWEST, none),
   (LatticeDir.WEST, none), (LatticeDir.NORTHWEST, none)]

/-- cornerNbrs with every link removed; same keys, different values. -/
def strippedCornerNbrs : List (LatticeDir × Option ℕ) :=
  cornerNbrs.map (fun pr => (pr.1, none))

/-- A concrete world: default_small parameters, size-4 lattice, nest at its
center (arena index 10), one live ant sitting on the corner node 0 heading
Northwest. -/
def w0 : AntWorld :=
  ⟨pDemo, square_lattice 4, 10, [⟨0, AntStatus.LOST, LatticeDir.NORTHWEST⟩], 0⟩

/-- A size-3 arena with 10 pheromone units on node 6 (grid (2,0), the
Northeast neighbor of the center node 4). -/
def nodes3demo : List LatticeNode :=
  listModify (square_lattice 3).nodes 6 (fun nd => nd.add_pheromone 10)

/-- The neighbor dictionary of the center node of the size-3 lattice. -/
def centerNbrs : List (LatticeDir × Option ℕ) :=
  ((square_lattice 3).nodes.getD 4 defaultNode).neighbors

/-- The world state w0 one Python step later, under the iterate-and-remove
semantics: the corner ant walked off the grid and was removed, and the
freshly spawned ant was skipped by the shifted iterator, so it never moved
and nothing was deposited. -/
def w1 : AntWorld :=
  ⟨pDemo, ⟨(square_lattice 4).nodes⟩, 10, [⟨10, AntStatus.LOST, LatticeDir.NORTH⟩], 1⟩

/-- Claim C8: for every direction d, opposite(opposite(d)) = d and
relative(opposite(d), d) = 180; and for every pair a b, relative(a, b)
equals (b - a) mod 360, minus 360 when that exceeds 180, so it always lies
in the range (-180, 180]. -/
theorem direction_algebra :
    (∀ d : LatticeDir, d.opposite.bind LatticeDir.opposite = some d) ∧
    (∀ d : LatticeDir, d.opposite.map (fun e => LatticeDir.relative e d) = some 180) ∧
    (∀ a b : LatticeDir,
      LatticeDir.relative a b =
        (if 180 < (b.value - a.value) % 360 then (b.value - a.value) % 360 - 360
         else (b.value - a.value) % 360) ∧
      -180 < LatticeDir.relative a b ∧ LatticeDir.relative a b ≤ 180) := by
  refine ⟨by decide, by decide, by decide⟩

/-- Claim C10: given pheromone_level at least 0, get_fidelity_probability
never divides by zero for any integer C_s (including zero and negative
values): the dividing branch is taken only when level < C_s, which together
with 0 <= level forces C_s >= 1, so the function always returns a value. -/
theorem fidelity_total (p : WorldParams) (level : ℤ) (h : 0 ≤ level) :
    (Ant.get_fidelity_probability p level).isSome = true ∧
    (¬ p.C_s ≤ level → 1 ≤ p.C_s) := by
  constructor
  · unfold Ant.get_fidelity_probability
    split_ifs with h1 h2
    · rfl
    · omega
    · rfl
  · intro h1
    omega

/-- Witness for C10 at level 5 with the default_small parameters. -/
theorem fidelity_total_witness :
    (0 : ℤ) ≤ 5 ∧ (Ant.get_fidelity_probability pDemo 5).isSome = true :=
  ⟨by norm_num, (fidelity_total pDemo 5 (by norm_num)).1⟩

/-- Claim C9: constructing WorldParams fails exactly when B does not have 8
entries, or its weights are not within 1e-6 of summing to 1, or phi_low or
delta_phi leaves [0,1]; tau, C_s, evaporation_rate, world_size and the
lattice builder are never validated, and interactive field mutation runs no
validation. -/
theorem worldparams_validation (tau : ℤ) (B : List (ℤ × ℚ)) (phi_low : ℚ) (C_s : ℤ)
    (delta_phi : ℚ) (evaporation_rate : ℤ) (world_size : ℕ)
    (generate_lattice : ℕ → AntLattice) :
    (exceptOk (mkWorldParams tau B phi_low C_s delta_phi evaporation_rate world_size
        generate_lattice) = true ↔
      (|(B.map Prod.snd).sum - 1| < 1 / 1000000 ∧ B.length = 8 ∧
        0 ≤ phi_low ∧ phi_low ≤ 1 ∧ 0 ≤ delta_phi ∧ delta_phi ≤ 1)) ∧
    (∀ tau2 C_s2 evap2 ws2 gen2,
      exceptOk (mkWorldParams tau2 B phi_low C_s2 delta_phi evap2 ws2 gen2) =
        exceptOk (mkWorldParams tau B phi_low C_s delta_phi evaporation_rate world_size
          generate_lattice)) ∧
    (∀ p : WorldParams, ∀ v : ℚ, (WorldParams.set_phi_low p v).phi_low = v) := by
  refine ⟨?_, ?_, fun p v => rfl⟩
  · unfold mkWorldParams exceptOk
    split_ifs <;> simp_all
  · intro tau2 C_s2 evap2 ws2 gen2
    unfold mkWorldParams exceptOk
    split_ifs <;> rfl

/-- Counterexample to claim C7 as stated: add_pheromone accepts a negative
amount (tau is an unvalidated int), so the sequence consisting of the
single operation add_pheromone(-1) drives a node of the freshly built
lattice to level -1, below zero. -/
theorem pheromone_negative_via_add :
    ((applyOps [PherOp.add 0 (-1)] (square_lattice 1).nodes).getD 0 defaultNode).pheromone_level
        = -1 ∧
    ¬ (∀ nd ∈ applyOps [PherOp.add 0 (-1)] (square_lattice 1).nodes,
        0 ≤ nd.pheromone_level) := by
  constructor
  · decide
  · decide

lemma mem_applyOp_nonneg (op : PherOp) (nodes : List LatticeNode)
    (h0 : ∀ nd ∈ nodes, 0 ≤ nd.pheromone_level)
    (hadd : ∀ i amt, op = PherOp.add i amt → 0 ≤ amt) :
    ∀ nd ∈ applyOp op nodes, 0 ≤ nd.pheromone_level := by
  intro nd hnd
  cases op with
  | add i amt =>
    have hamt : 0 ≤ amt := hadd i amt rfl
    simp only [applyOp, listModify] at hnd
    rcases hx : nodes[i]? with _ | x
    · rw [hx] at hnd; exact h0 nd hnd
    · rw [hx] at hnd
      rcases List.mem_or_eq_of_mem_set hnd with hmem | heq
      · exact h0 nd hmem
      · subst heq
        have hx2 : x ∈ nodes := by
          obtain ⟨h1, h2⟩ := List.getElem?_eq_some.mp hx
          exact h2 ▸ List.getElem_mem h1
        have := h0 x hx2
        simp [LatticeNode.add_pheromone]
        omega
  | remove i amt =>
    simp only [applyOp, listModify] at hnd
    rcases hx : nodes[i]? with _ | x
    · rw [hx] at hnd; exact h0 nd hnd
    · rw [hx] at hnd
      rcases List.mem_or_eq_of_mem_set hnd with hmem | heq
      · exact h0 nd hmem
      · subst heq
        simp [LatticeNode.remove_pheromone]
  | evaporate p =>
    simp only [applyOp, evaporate_all_pheromones] at hnd
    rcases List.mem_map.mp hnd with ⟨x, _, hx⟩
    subst hx
    simp [LatticeNode.remove_pheromone]

/-- Claim C7 (amended): remove_pheromone clamps at zero and
evaporate_all_pheromones applies it to every node unconditionally, so no
sequence of add/remove/evaporate operations in which every add amount is
non-negative can drive any node below zero (the original claim, quantified
over arbitrary add amounts, fails by pheromone_negative_via_add). -/
theorem pheromone_never_negative (ops : List PherOp) (nodes : List LatticeNode)
    (h0 : ∀ nd ∈ nodes, 0 ≤ nd.pheromone_level)
    (hadd : ∀ i amt, PherOp.add i amt ∈ ops → 0 ≤ amt) :
    (∀ nd ∈ applyOps ops nodes, 0 ≤ nd.pheromone_level) ∧
    (∀ (nd : LatticeNode) (amt : ℤ), 0 ≤ (nd.remove_pheromone amt).pheromone_level) ∧
    (∀ (ns : List LatticeNode) (p : WorldParams),
      evaporate_all_pheromones ns p =
        ns.map (fun nd => nd.remove_pheromone p.evaporation_rate)) := by
  refine ⟨?_, fun nd amt => by simp [LatticeNode.remove_pheromone], fun ns p => rfl⟩
  induction ops generalizing nodes with
  | nil => exact h0
  | cons op rest ih =>
    intro nd hnd
    unfold applyOps at hnd
    rw [List.foldl_cons] at hnd
    exact ih (applyOp op nodes)
      (mem_applyOp_nonneg op nodes h0 (fun i amt he => hadd i amt (by rw [he]; exact List.mem_cons_self _ _)))
      (fun i amt hm => hadd i amt (List.mem_cons_of_mem _ hm)) nd hnd

/-- Witness for C7 on a concrete add/evaporate/remove sequence, evaluated
at the first node of the arena. -/
theorem pheromone_never_negative_witness :
    0 ≤ ((applyOps [PherOp.add 0 4, PherOp.evaporate pDemo, PherOp.remove 0 9]
        (square_lattice 2).nodes).getD 0 defaultNode).pheromone_level :=
  (pheromone_never_negative [PherOp.add 0 4, PherOp.evaporate pDemo, PherOp.remove 0 9]
    (square_lattice 2).nodes (by decide)
    (by
      intro i amt hm
      simp only [List.mem_cons, List.not_mem_nil, or_false] at hm
      rcases hm with h | h | h
      · injection h with h1 h2; subst h2; norm_num
      · injection h
      · injection h)).1
    ((applyOps [PherOp.add 0 4, PherOp.evaporate pDemo, PherOp.remove 0 9]
        (square_lattice 2).nodes).getD 0 defaultNode)
    (by decide)

/-- Counterexample to claim C6 as stated: at world_size 1 (a legal size
greater than 0) the corner node (0,0) has 0 present neighbors, not 3. -/
theorem corner_size_one :
    ((square_lattice 1).nodes.getD 0 defaultNode).neighbors.countP (fun pr => pr.2.isSome) = 0 ∧
    ¬ ((square_lattice 1).nodes.getD 0 defaultNode).neighbors.countP (fun pr => pr.2.isSome) = 3 := by
  decide

lemma dictLookup_nodeAt (N x y : ℕ) (d : LatticeDir) :
    dictLookup d (nodeAt N x y).neighbors =
      (if 0 ≤ (x : ℤ) + (dirOffset d).1 ∧ (x : ℤ) + (dirOffset d).1 < (N : ℤ) ∧
          0 ≤ (y : ℤ) + (dirOffset d).2 ∧ (y : ℤ) + (dirOffset d).2 < (N : ℤ) then
        some ((((x : ℤ) + (dirOffset d).1).toNat) * N + (((y : ℤ) + (dirOffset d).2).toNat))
      else none) := by
  cases d <;> rfl

/-- Claim C6 (amended): for every world_size N the builder produces exactly
N*N nodes, one per integer position (x,y) with 0 <= x,y < N, and a node is
linked in a direction exactly when the geometric target is in bounds (no
wraparound); for N >= 2 the corner (0,0) has exactly 3 present neighbors
(East, South, Southeast), and interior nodes have exactly 8.  The original
claim asserted the corner count for every N > 0, which fails at N = 1 by
corner_size_one. -/
theorem square_lattice_spec (N : ℕ) :
    ((square_lattice N).nodes.length = N * N) ∧
    ((square_lattice N).nodes.map LatticeNode.position =
      (List.range N).flatMap (fun (x : ℕ) => (List.range N).map (fun (y : ℕ) => ((x : ℤ), (y : ℤ))))) ∧
    (∀ nd ∈ (square_lattice N).nodes, ∃ x y, x < N ∧ y < N ∧ nd = nodeAt N x y) ∧
    (∀ x y : ℕ, ∀ d : LatticeDir,
      dictLookup d (nodeAt N x y).neighbors =
        (if 0 ≤ (x : ℤ) + (dirOffset d).1 ∧ (x : ℤ) + (dirOffset d).1 < (N : ℤ) ∧
            0 ≤ (y : ℤ) + (dirOffset d).2 ∧ (y : ℤ) + (dirOffset d).2 < (N : ℤ) then
          some ((((x : ℤ) + (dirOffset d).1).toNat) * N + (((y : ℤ) + (dirOffset d).2).toNat))
        else none)) ∧
    (0 < N → (square_lattice N).nodes.getD 0 defaultNode = nodeAt N 0 0) ∧
    (2 ≤ N →
      (nodeAt N 0 0).neighbors.countP (fun pr => pr.2.isSome) = 3 ∧
      (dictLookup LatticeDir.EAST (nodeAt N 0 0).neighbors).isSome = true ∧
      (dictLookup LatticeDir.SOUTH (nodeAt N 0 0).neighbors).isSome = true ∧
      (dictLookup LatticeDir.SOUTHEAST (nodeAt N 0 0).neighbors).isSome = true) ∧
    (∀ x y : ℕ, 0 < x → x + 1 < N → 0 < y → y + 1 < N →
      (nodeAt N x y).neighbors.countP (fun pr => pr.2.isSome) = 8) := by
  refine ⟨?_, ?_, ?_, fun x y d => dictLookup_nodeAt N x y d, ?_, ?_, ?_⟩
  · show ((List.range N).flatMap (fun x => (List.range N).map (fun y => nodeAt N x y))).length = N * N
    rw [List.length_flatMap]
    simp [Function.comp_def]
  · simp only [square_lattice, List.map_flatMap, List.map_map]
    rfl
  · intro nd hnd
    simp only [square_lattice, List.mem_flatMap, List.mem_map, List.mem_range] at hnd
    obtain ⟨x, hx, y, hy, heq⟩ := hnd
    exact ⟨x, y, hx, hy, heq.symm⟩
  · intro hN
    obtain ⟨m, rfl⟩ : ∃ m, N = m + 1 := ⟨N - 1, by omega⟩
    simp [square_lattice, List.range_succ_eq_map]
  · intro h2
    have h1 : (1 : ℤ) < (N : ℤ) := by exact_mod_cast h2
    have h0 : (0 : ℤ) < (N : ℤ) := by omega
    refine ⟨?_, ?_, ?_, ?_⟩
    · simp only [nodeAt, LatticeDir.all, dirOffset, List.map_cons, List.map_nil,
        List.countP_cons, List.countP_nil]
      norm_num [h1, h0]
    · rw [dictLookup_nodeAt]; norm_num [dirOffset, h1, h0]
    · rw [dictLookup_nodeAt]; norm_num [dirOffset, h1, h0]
    · rw [dictLookup_nodeAt]; norm_num [dirOffset, h1, h0]
  · intro x y hx hxN hy hyN
    have a1 : (1 : ℤ) ≤ (x : ℤ) := by exact_mod_cast hx
    have a2 : (0 : ℤ) ≤ (x : ℤ) := by omega
    have a3 : (x : ℤ) < (N : ℤ) := by exact_mod_cast by omega
    have a4 : (x : ℤ) + 1 < (N : ℤ) := by exact_mod_cast hxN
    have a5 : (x : ℤ) < (N : ℤ) + 1 := by omega
    have a6 : (0 : ℤ) ≤ (x : ℤ) + 1 := by omega
    have b1 : (1 : ℤ) ≤ (y : ℤ) := by exact_mod_cast hy
    have b2 : (0 : ℤ) ≤ (y : ℤ) := by omega
    have b3 : (y : ℤ) < (N : ℤ) := by exact_mod_cast by omega
    have b4 : (y : ℤ) + 1 < (N : ℤ) := by exact_mod_cast hyN
    have b5 : (y : ℤ) < (N : ℤ) + 1 := by omega
    have b6 : (0 : ℤ) ≤ (y : ℤ) + 1 := by omega
    simp only [nodeAt, LatticeDir.all, dirOffset, List.map_cons, List.map_nil,
      List.countP_cons, List.countP_nil]
    norm_num [a1, a2, a3, a4, a5, a6, b1, b2, b3, b4, b5, b6]

/-- Witness for C6 at N = 3. -/
theorem square_lattice_spec_witness :
    (0 < 3 ∧ (square_lattice 3).nodes.getD 0 defaultNode = nodeAt 3 0 0) ∧
    (2 ≤ 3 ∧ (nodeAt 3 0 0).neighbors.countP (fun pr => pr.2.isSome) = 3) ∧
    (nodeAt 3 1 1).neighbors.countP (fun pr => pr.2.isSome) = 8 :=
  ⟨⟨by norm_num, (square_lattice_spec 3).2.2.2.2.1 (by norm_num)⟩,
   ⟨by norm_num, ((square_lattice_spec 3).2.2.2.2.2.1 (by norm_num)).1⟩,
   (square_lattice_spec 3).2.2.2.2.2.2 1 1 (by norm_num) (by norm_num) (by norm_num) (by norm_num)⟩

/-- Claim C1: one call to Ant.move performs the fidelity check as
specified: at pheromone level 0 the status is LOST and no random draw is
consumed; at level >= C_s the draw is compared against phi_low + delta_phi;
at 0 < level < C_s against phi_low + delta_phi * (level / C_s), FOLLOWING
exactly when the draw is below the probability; and the status Ant.move
leaves on the ant is exactly the fidelity-phase status. -/
theorem fidelity_check_spec (p : WorldParams) (level : ℤ) (nodes : List LatticeNode)
    (a : Ant) (rng : List ℚ) :
    (level = 0 → fidelityPhase p level rng = (AntStatus.LOST, rng)) ∧
    (0 < level → p.C_s ≤ level →
      fidelityPhase p level rng =
        (if rng.headD 0 < p.phi_low + p.delta_phi then AntStatus.FOLLOWING
         else AntStatus.LOST, rng.tail)) ∧
    (0 < level → level < p.C_s →
      fidelityPhase p level rng =
        (if rng.headD 0 < p.phi_low + p.delta_phi * ((level : ℚ) / (p.C_s : ℚ))
         then AntStatus.FOLLOWING else AntStatus.LOST, rng.tail)) ∧
    ((Ant.move p nodes a rng).1.status =
      (fidelityPhase p ((nodes.getD a.current_node defaultNode).pheromone_level) rng).1) := by
  refine ⟨?_, ?_, ?_, ?_⟩
  · intro h
    subst h
    simp [fidelityPhase]
  · intro h1 h2
    simp only [fidelityPhase, rngNext, if_pos h1, Ant.get_fidelity_probability, if_pos h2,
      Option.getD_some]
  · intro h1 h2
    have hcs : ¬ p.C_s ≤ level := by omega
    have hcs0 : ¬ p.C_s = 0 := by omega
    simp only [fidelityPhase, rngNext, if_pos h1, Ant.get_fidelity_probability, if_neg hcs,
      if_neg hcs0, Option.getD_some]
  · simp only [Ant.move, execMove]
    split <;> rfl

/-- Witness for C1 exercising all three fidelity branches. -/
theorem fidelity_check_spec_witness :
    fidelityPhase pDemo 0 [1/2] = (AntStatus.LOST, [1/2]) ∧
    fidelityPhase pDemo 20 [1/2] = (AntStatus.FOLLOWING, []) ∧
    fidelityPhase pDemo 8 [1/4] = (AntStatus.FOLLOWING, []) := by
  refine ⟨(fidelity_check_spec pDemo 0 [] defaultAnt [(1:ℚ)/2]).1 rfl, ?_, ?_⟩
  · rw [(fidelity_check_spec pDemo 20 [] defaultAnt [(1:ℚ)/2]).2.1 (by norm_num)
      (by norm_num [pDemo])]
    norm_num [pDemo]
  · rw [(fidelity_check_spec pDemo 8 [] defaultAnt [(1:ℚ)/4]).2.2.1 (by norm_num)
      (by norm_num [pDemo])]
    norm_num [pDemo]

/-- Claim C5: in the move-execution step, an absent neighbor returns the
value MoveResult.OFF_GRID with the ant and the lattice untouched (no
pheromone deposited); a present neighbor returns SUCCESS, moves the ant
there, turns it to the chosen direction, and adds exactly tau pheromone to
the target node and to no other node. -/
theorem move_execution_spec (p : WorldParams) (a : Ant) (dir : LatticeDir)
    (nodes : List LatticeNode) :
    (dictLookup dir (nodes.getD a.current_node defaultNode).neighbors = none →
      execMove p a dir nodes = (a, MoveResult.OFF_GRID, nodes)) ∧
    (∀ i, dictLookup dir (nodes.getD a.current_node defaultNode).neighbors = some i →
      execMove p a dir nodes =
        ({ a with current_node := i, velocity := dir }, MoveResult.SUCCESS,
          listModify nodes i (fun nd => nd.add_pheromone p.tau)) ∧
      (∀ j, j ≠ i → (listModify nodes i (fun nd => nd.add_pheromone p.tau))[j]? = nodes[j]?) ∧
      (i < nodes.length →
        ((listModify nodes i (fun nd => nd.add_pheromone p.tau)).getD i defaultNode).pheromone_level
          = (nodes.getD i defaultNode).pheromone_level + p.tau)) := by
  constructor
  · intro h
    simp only [execMove]
    rw [h]
  · intro i h
    refine ⟨?_, ?_, ?_⟩
    · simp only [execMove]
      rw [h]
    · intro j hj
      unfold listModify
      rcases hx : nodes[i]? with _ | x
      · rfl
      · dsimp only
        exact List.getElem?_set_ne hj.symm
    · intro hi
      unfold listModify
      rcases hx : nodes[i]? with _ | x
      · rw [List.getElem?_eq_none_iff] at hx
        omega
      · dsimp only
        rw [List.getD_eq_getElem?_getD, List.getElem?_set_self (by omega),
          List.getD_eq_getElem?_getD, hx]
        simp [LatticeNode.add_pheromone]

/-- Witness for C5 at the corner of the size-4 lattice, one absent and one
present direction. -/
theorem move_execution_spec_witness :
    execMove pDemo ⟨0, AntStatus.LOST, LatticeDir.NORTHWEST⟩ LatticeDir.NORTHWEST
        (square_lattice 4).nodes =
      (⟨0, AntStatus.LOST, LatticeDir.NORTHWEST⟩, MoveResult.OFF_GRID,
        (square_lattice 4).nodes) ∧
    execMove pDemo ⟨0, AntStatus.LOST, LatticeDir.NORTHWEST⟩ LatticeDir.EAST
        (square_lattice 4).nodes =
      (⟨4, AntStatus.LOST, LatticeDir.EAST⟩, MoveResult.SUCCESS,
        listModify (square_lattice 4).nodes 4 (fun nd => nd.add_pheromone pDemo.tau)) :=
  ⟨(move_execution_spec pDemo ⟨0, AntStatus.LOST, LatticeDir.NORTHWEST⟩ LatticeDir.NORTHWEST
      (square_lattice 4).nodes).1 (by decide),
   ((move_execution_spec pDemo ⟨0, AntStatus.LOST, LatticeDir.NORTHWEST⟩ LatticeDir.EAST
      (square_lattice 4).nodes).2 4 (by decide)).1⟩

/-- Claim C2: pick_lost draws over exactly the 8 neighbor-dictionary keys,
weighting direction d by B[relative(velocity, d)], regardless of the stored
node values (pheromone or absence): the choice depends only on the key
list, and a boundary-absent direction keeps its kernel weight and is
sampled (here Northwest at the corner of the size-4 lattice, whose
Northwest entry is absent — the later move execution turns exactly this
into OFF_GRID). -/
theorem pick_lost_spec (p : WorldParams) (v : LatticeDir)
    (nbrs nbrs2 : List (LatticeDir × Option ℕ)) (rng : List ℚ)
    (hkeys : nbrs.map Prod.fst = nbrs2.map Prod.fst) :
    (Ant.pick_lost p v nbrs rng = Ant.pick_lost p v nbrs2 rng) ∧
    (Ant.pick_lost p v nbrs rng =
      ((nbrs.map Prod.fst).getD
        (chooseIdx
          (cumsum ((nbrs.map Prod.fst).map (fun d => lookupB p.B (LatticeDir.relative v d))))
          (rng.headD 0 *
            ((nbrs.map Prod.fst).map (fun d => lookupB p.B (LatticeDir.relative v d))).sum))
        LatticeDir.NORTH, rng.tail)) ∧
    (Ant.pick_lost pDemo LatticeDir.NORTHWEST cornerNbrs [3/5] =
      (LatticeDir.NORTHWEST, [])) ∧
    (dictLookup LatticeDir.NORTHWEST cornerNbrs = none) := by
  refine ⟨?_, rfl, ?_, by decide⟩
  · simp only [Ant.pick_lost, hkeys]
  · norm_num [Ant.pick_lost, rngNext, cumsum, chooseIdx, lookupB, cornerNbrs,
      LatticeDir.relative, LatticeDir.value, pDemo, B_small]

/-- Witness for C2: the corner dictionary and the same dictionary with all
links stripped give the same pick. -/
theorem pick_lost_spec_witness :
    Ant.pick_lost pDemo LatticeDir.NORTHWEST cornerNbrs [3/5] =
      Ant.pick_lost pDemo LatticeDir.NORTHWEST strippedCornerNbrs [3/5] :=
  (pick_lost_spec pDemo LatticeDir.NORTHWEST cornerNbrs strippedCornerNbrs [3/5]
    (by decide)).1

lemma relative_natAbs_comm (a b : LatticeDir) :
    (LatticeDir.relative a b).natAbs = (LatticeDir.relative b a).natAbs := by
  revert a b
  decide

lemma foldl_maxPher_mem (l : List (LatticeDir × LatticeNode)) (init : LatticeDir × LatticeNode) :
    l.foldl (fun best pr => if best.2.pheromone_level < pr.2.pheromone_level then pr else best)
        init = init ∨
    l.foldl (fun best pr => if best.2.pheromone_level < pr.2.pheromone_level then pr else best)
        init ∈ l := by
  induction l generalizing init with
  | nil => exact Or.inl rfl
  | cons a t ih =>
    rw [List.foldl_cons]
    rcases ih (if init.2.pheromone_level < a.2.pheromone_level then a else init) with h | h
    · rw [h]
      split_ifs with hc
      · exact Or.inr (List.mem_cons_self _ _)
      · exact Or.inl rfl
    · exact Or.inr (List.mem_cons_of_mem _ h)

lemma foldl_maxPher_ge (l : List (LatticeDir × LatticeNode)) (init : LatticeDir × LatticeNode) :
    init.2.pheromone_level ≤
      (l.foldl (fun best pr => if best.2.pheromone_level < pr.2.pheromone_level then pr else best)
        init).2.pheromone_level ∧
    ∀ pr ∈ l, pr.2.pheromone_level ≤
      (l.foldl (fun best pr => if best.2.pheromone_level < pr.2.pheromone_level then pr else best)
        init).2.pheromone_level := by
  induction l generalizing init with
  | nil => exact ⟨le_refl _, by simp⟩
  | cons a t ih =>
    rw [List.foldl_cons]
    obtain ⟨ih1, ih2⟩ := ih (if init.2.pheromone_level < a.2.pheromone_level then a else init)
    constructor
    · refine le_trans ?_ ih1
      split_ifs with hc
      · omega
      · exact le_refl _
    · intro pr hpr
      rcases List.mem_cons.mp hpr with h | h
      · subst h
        refine le_trans ?_ ih1
        split_ifs with hc
        · exact le_refl _
        · omega
      · exact ih2 pr h

lemma maxByPher_mem (l : List (LatticeDir × LatticeNode)) (hl : l ≠ []) :
    maxByPher l ∈ l := by
  obtain ⟨a, t, rfl⟩ := List.exists_cons_of_ne_nil hl
  unfold maxByPher
  rcases foldl_maxPher_mem (a :: t) ((a :: t).headD (LatticeDir.NORTH, defaultNode)) with h | h
  · rw [h]
    exact List.mem_cons_self _ _
  · exact h

lemma maxByPher_ge (l : List (LatticeDir × LatticeNode)) :
    ∀ pr ∈ l, pr.2.pheromone_level ≤ (maxByPher l).2.pheromone_level := by
  unfold maxByPher
  exact (foldl_maxPher_ge l (l.headD (LatticeDir.NORTH, defaultNode))).2

/-- Claim C3: pick_following computes nearby_trails as exactly the
directions with a present neighbor node of positive pheromone within 45
degrees of the velocity (the source measures the angle from the candidate
to the velocity, which agrees in absolute value with the spec's
relative(velocity, d)); an empty set falls back to pick_lost over the full
neighbor dictionary, a single candidate is chosen, the velocity direction
wins among several, an all-equal or all-saturated fork falls back to
pick_lost over the full dictionary, and otherwise a candidate of maximal
pheromone level is chosen. -/
theorem pick_following_spec (p : WorldParams) (v : LatticeDir)
    (neighbors : List (LatticeDir × Option ℕ)) (nodes : List LatticeNode) (rng : List ℚ) :
    ((nearby_trails v nodes neighbors).map Prod.fst = forkCandidatesSpec v nodes neighbors) ∧
    (nearby_trails v nodes neighbors = [] →
      Ant.pick_following p v neighbors nodes rng = Ant.pick_lost p v neighbors rng) ∧
    (∀ d nd, nearby_trails v nodes neighbors = [(d, nd)] →
      Ant.pick_following p v neighbors nodes rng = (d, rng)) ∧
    (2 ≤ (nearby_trails v nodes neighbors).length →
      v ∈ (nearby_trails v nodes neighbors).map Prod.fst →
      Ant.pick_following p v neighbors nodes rng = (v, rng)) ∧
    (2 ≤ (nearby_trails v nodes neighbors).length →
      v ∉ (nearby_trails v nodes neighbors).map Prod.fst →
      ((∀ pr ∈ nearby_trails v nodes neighbors, pr.2.pheromone_level =
          ((nearby_trails v nodes neighbors).headD
            (LatticeDir.NORTH, defaultNode)).2.pheromone_level) ∨
       (∀ pr ∈ nearby_trails v nodes neighbors, p.C_s ≤ pr.2.pheromone_level)) →
      Ant.pick_following p v neighbors nodes rng = Ant.pick_lost p v neighbors rng) ∧
    (2 ≤ (nearby_trails v nodes neighbors).length →
      v ∉ (nearby_trails v nodes neighbors).map Prod.fst →
      ¬ (∀ pr ∈ nearby_trails v nodes neighbors, pr.2.pheromone_level =
          ((nearby_trails v nodes neighbors).headD
            (LatticeDir.NORTH, defaultNode)).2.pheromone_level) →
      ¬ (∀ pr ∈ nearby_trails v nodes neighbors, p.C_s ≤ pr.2.pheromone_level) →
      (Ant.pick_following p v neighbors nodes rng =
        ((maxByPher (nearby_trails v nodes neighbors)).1, rng) ∧
       maxByPher (nearby_trails v nodes neighbors) ∈ nearby_trails v nodes neighbors ∧
       ∀ pr ∈ nearby_trails v nodes neighbors,
         pr.2.pheromone_level ≤ (maxByPher (nearby_trails v nodes neighbors)).2.pheromone_level)) := by
  refine ⟨?_, ?_, ?_, ?_, ?_, ?_⟩
  · induction neighbors with
    | nil => rfl
    | cons pr rest ih =>
      rcases pr with ⟨d0, o0⟩
      rcases o0 with _ | i
      · simpa [nearby_trails, forkCandidatesSpec, List.filterMap_cons, List.filter_cons]
          using ih
      · by_cases hc : 0 < (nodes.getD i defaultNode).pheromone_level ∧
          (LatticeDir.relative d0 v).natAbs ≤ 45
        · simp only [nearby_trails, forkCandidatesSpec, List.filterMap_cons, List.filter_cons,
            if_pos hc] at ih ⊢
          have hc2 : (decide (0 < (nodes.getD i defaultNode).pheromone_level) &&
              decide ((LatticeDir.relative v d0).natAbs ≤ 45)) = true := by
            rw [Bool.and_eq_true, decide_eq_true_eq, decide_eq_true_eq]
            exact ⟨hc.1, relative_natAbs_comm v d0 ▸ hc.2⟩
          simp only [hc2, if_true, List.map_cons]
          exact congrArg _ ih
        · simp only [nearby_trails, forkCandidatesSpec, List.filterMap_cons, List.filter_cons,
            if_neg hc] at ih ⊢
          have hc2 : ¬ ((decide (0 < (nodes.getD i defaultNode).pheromone_level) &&
              decide ((LatticeDir.relative v d0).natAbs ≤ 45)) = true) := by
            rw [Bool.and_eq_true, decide_eq_true_eq, decide_eq_true_eq]
            intro h
            exact hc ⟨h.1, relative_natAbs_comm d0 v ▸ h.2⟩
          simp only [hc2, if_false]
          exact ih
  · intro h
    simp [Ant.pick_following, h]
  · intro d nd h
    simp [Ant.pick_following, h]
  · intro h2 hv
    simp only [Ant.pick_following]
    rw [if_neg (by omega), if_neg (by omega), if_pos hv]
  · intro h2 hv hsame
    simp only [Ant.pick_following]
    rw [if_neg (by omega), if_neg (by omega), if_neg hv, if_pos ?_]
    rcases hsame with h | h
    · refine Or.inl ?_
      rw [List.all_eq_true]
      intro x hx
      exact decide_eq_true (h x hx)
    · refine Or.inr ?_
      rw [List.all_eq_true]
      intro x hx
      exact decide_eq_true (h x hx)
  · intro h2 hv hns hnsat
    have hne : nearby_trails v nodes neighbors ≠ [] := by
      intro h
      rw [h] at h2
      simp at h2
    refine ⟨?_, maxByPher_mem _ hne, maxByPher_ge _⟩
    simp only [Ant.pick_following]
    rw [if_neg (by omega), if_neg (by omega), if_neg hv, if_neg ?_]
    rintro (h | h)
    · refine hns ?_
      rw [List.all_eq_true] at h
      intro x hx
      exact of_decide_eq_true (h x hx)
    · refine hnsat ?_
      rw [List.all_eq_true] at h
      intro x hx
      exact of_decide_eq_true (h x hx)

/-- Witness for C3: a single Northeast candidate is chosen. -/
theorem pick_following_spec_witness :
    nearby_trails LatticeDir.NORTH nodes3demo centerNbrs =
      [(LatticeDir.NORTHEAST, nodes3demo.getD 6 defaultNode)] ∧
    Ant.pick_following pDemo LatticeDir.NORTH centerNbrs nodes3demo [0] =
      (LatticeDir.NORTHEAST, [0]) :=
  ⟨by decide,
   (pick_following_spec pDemo LatticeDir.NORTH centerNbrs nodes3demo [0]).2.2.1
     LatticeDir.NORTHEAST (nodes3demo.getD 6 defaultNode) (by decide)⟩

-- C4 helpers
lemma node0_eq : (square_lattice 4).nodes.getD 0 defaultNode =
    ⟨(0, 0), 0, cornerNbrs⟩ := by decide

lemma pickNW : Ant.pick_lost pDemo LatticeDir.NORTHWEST cornerNbrs [3/5] =
    (LatticeDir.NORTHWEST, []) := by
  norm_num [Ant.pick_lost, rngNext, cumsum, chooseIdx, lookupB, cornerNbrs,
    LatticeDir.relative, LatticeDir.value, pDemo, B_small]

lemma exec0 : execMove pDemo ⟨0, AntStatus.LOST, LatticeDir.NORTHWEST⟩
    LatticeDir.NORTHWEST (square_lattice 4).nodes =
    (⟨0, AntStatus.LOST, LatticeDir.NORTHWEST⟩, MoveResult.OFF_GRID,
      (square_lattice 4).nodes) := by decide

lemma move0 : Ant.move pDemo (square_lattice 4).nodes
    ⟨0, AntStatus.LOST, LatticeDir.NORTHWEST⟩ [3/5] =
    (⟨0, AntStatus.LOST, LatticeDir.NORTHWEST⟩, MoveResult.OFF_GRID,
      (square_lattice 4).nodes, []) := by
  have hf : fidelityPhase pDemo 0 [3/5] = (AntStatus.LOST, [3/5]) := rfl
  simp only [Ant.move, node0_eq, hf, pickNW]
  simp [exec0]

lemma evap0 : evaporate_all_pheromones (square_lattice 4).nodes pDemo =
    (square_lattice 4).nodes := by decide

lemma loop0 : moveLoop pDemo 2 (square_lattice 4).nodes
    [⟨0, AntStatus.LOST, LatticeDir.NORTHWEST⟩, ⟨10, AntStatus.LOST, LatticeDir.NORTH⟩]
    [3/5] 0 = ((square_lattice 4).nodes, [⟨10, AntStatus.LOST, LatticeDir.NORTH⟩], []) := by
  simp [moveLoop, move0]

/-- Claim C4 (code-bug exhibit): the step loop removes an ant from the
collection while iterating it, so after an OFF_GRID removal the next ant in
the list is skipped.  Concretely, from w0 (one corner ant heading off the
grid): the step increments the timestep and appends one new ant at the nest
in spawn order, and the OFF_GRID ant is removed, but the surviving freshly
spawned ant never moves — it is still at the nest and the whole lattice
carries zero pheromone, although a performed move would have deposited
tau = 4 (leaving 3 after evaporation).  This refutes the claim's clause
that every surviving ant moves exactly once per step. -/
theorem step_skips_ant_after_offgrid_removal :
    (AntWorld.step w0 [0, 3/5]).1.timestep = w0.timestep + 1 ∧
    (AntWorld.step w0 [0, 3/5]).1.ants = [⟨10, AntStatus.LOST, LatticeDir.NORTH⟩] ∧
    ((AntWorld.step w0 [0, 3/5]).1.ants.getD 0 defaultAnt).current_node = w0.nest_node ∧
    ((AntWorld.step w0 [0, 3/5]).1.lattice.nodes.all
      (fun nd => nd.pheromone_level = 0)) = true := by
  have hrand : randomChoiceDir (0 : ℚ) = LatticeDir.NORTH := by
    norm_num [randomChoiceDir, LatticeDir.all]
  have hstep : (AntWorld.step w0 [0, 3/5]) = (w1, []) := by
    simp only [AntWorld.step, w0, rngNext, List.headD_cons, List.tail_cons,
      List.cons_append, List.nil_append, List.length_cons, List.length_nil, hrand]
    norm_num [loop0, evap0, w1]
  rw [hstep]
  refine ⟨rfl, rfl, rfl, by decide⟩
